import Mathlib

/-!
Verification development for the frepi onboarding pipeline.

Shallow embedding of the onboarding subagent services
(analysis_service.py, staging_service.py, commit_service.py,
tools/image_parser.py, agent.py) with Python floats modelled as
rationals and Python dict / list state modelled as insertion-ordered
association lists.  Each definition mirrors one function of the source;
the theorems at the end settle the specification claims.
-/

namespace Frepi

/-- Model of Python `round(x, 2)`: round to two decimal places.
Ties away from half do not occur in any statement below, so the
difference between binary-float rounding and rational rounding is
immaterial here. -/
def round2 (q : ℚ) : ℚ := ((round (q * 100) : ℤ) : ℚ) / 100

/-- Model of Python `round(x, 1)`. -/
def round1 (q : ℚ) : ℚ := ((round (q * 10) : ℤ) : ℚ) / 10

/-- Python truthiness of an optional float: `None` and `0.0` are falsy. -/
def qTruthy : Option ℚ → Bool
  | none => false
  | some x => x ≠ 0

/-- Python truthiness of an optional string: `None` and `""` are falsy. -/
def strTruthy : Option String → Bool
  | none => false
  | some s => s ≠ ""

/-- Stable insertion into a descending-sorted list: the new element goes
in front of the first element whose key is not larger.  This reproduces
the stability of Python `sorted(..., reverse=True)`. -/
def insertDesc {α : Type} (key : α → ℚ) (x : α) : List α → List α
  | [] => [x]
  | y :: ys => if key x < key y then y :: insertDesc key x ys else x :: y :: ys

/-- Stable sort, descending by a rational key; model of Python
`sorted(l, key=key, reverse=True)`. -/
def sortDesc {α : Type} (key : α → ℚ) : List α → List α
  | [] => []
  | x :: xs => insertDesc key x (sortDesc key xs)

/-- Lowercase a string character by character (model of `str.lower()`
for the ASCII names used in the pipeline). -/
def lowerStr (s : String) : String := ⟨s.data.map Char.toLower⟩

/-- Words of a string: lowercase, split on spaces, drop empty pieces
(model of Python `name.lower().split()` for space-separated names). -/
def wordsOf (s : String) : List String :=
  (((lowerStr s).data.splitOn ' ').filter (· ≠ [])).map (fun cs => ⟨cs⟩)

/-- Decide whether the first list is a prefix of the second. -/
def isPrefixL : List Char → List Char → Bool
  | [], _ => true
  | _ :: _, [] => false
  | a :: as, b :: bs => a = b && isPrefixL as bs

/-- Decide whether `needle` occurs as a contiguous sublist of `hay`. -/
def containsL (needle : List Char) : List Char → Bool
  | [] => isPrefixL needle []
  | c :: rest => isPrefixL needle (c :: rest) || containsL needle rest

/-- Substring test on strings (model of Python `needle in hay`). -/
def containsStr (needle hay : String) : Bool := containsL needle.data hay.data

/-- Split worker: scans the text, cutting at every non-overlapping
occurrence of `sep`; the fuel argument makes the recursion structural
and is instantiated with the text length, which always suffices. -/
def splitGo (sep : List Char) : ℕ → List Char → List Char → List (List Char)
  | _, [], cur => [cur.reverse]
  | 0, cs, cur => [cur.reverse ++ cs]
  | fuel + 1, c :: rest, cur =>
    if isPrefixL sep (c :: rest) then
      cur.reverse :: splitGo sep fuel (List.drop sep.length (c :: rest)) []
    else
      splitGo sep fuel rest (c :: cur)

/-- Model of Python `s.split(sep)` for a non-empty separator. -/
def splitOnStr (sep s : String) : List String :=
  (splitGo sep.data s.data.length s.data []).map (fun cs => ⟨cs⟩)

/-- Model of Python `s.strip()`. -/
def stripStr (s : String) : String :=
  ⟨((s.data.dropWhile Char.isWhitespace).reverse.dropWhile Char.isWhitespace).reverse⟩

/-- Lookup in an insertion-ordered association list (Python `dict.get`). -/
def alookup {β : Type} (m : List (ℕ × β)) (k : ℕ) : Option β :=
  (m.find? (fun kv => kv.1 = k)).map (fun kv => kv.2)

end Frepi

namespace Frepi.Analysis

/-- One staged price row, with the fields read by `_analyze_products`
and `_analyze_prices` (analysis_service.py). -/
structure StagedPriceA where
  staging_product_id : Option ℕ
  unit_price : ℚ
  quantity_purchased : Option ℚ
  total_line_amount : Option ℚ

/-- Model of the spend contribution of one price row inside
`_analyze_products`: prefer a truthy `total_line_amount`, else
`unit_price * quantity_purchased` when both are truthy, else nothing. -/
def lineSpend (p : StagedPriceA) : ℚ :=
  if qTruthy p.total_line_amount then p.total_line_amount.getD 0
  else if p.unit_price ≠ 0 ∧ qTruthy p.quantity_purchased then
    p.unit_price * p.quantity_purchased.getD 0
  else 0

/-- Price rows grouped to one product, in input order
(the `price_by_product` defaultdict of `_analyze_products`). -/
def pricesFor (prices : List StagedPriceA) (pid : ℕ) : List StagedPriceA :=
  prices.filter (fun p => p.staging_product_id = some pid)

/-- Total spend of one product (the `product_spend` accumulator). -/
def product_spend (ps : List StagedPriceA) : ℚ := (ps.map lineSpend).sum

/-- Frequency component of the importance score:
`min(purchase_frequency / 10, 1.0)`. -/
def freq_score (freq : ℕ) : ℚ := min ((freq : ℚ) / 10) 1

/-- Spend component: `min(total_spend_product / (total_spend * 0.2), 1.0)`
when the session total is positive, else `0`. -/
def spend_score (spend total : ℚ) : ℚ :=
  if 0 < total then min (spend / (total * (2/10))) 1 else 0

/-- Spend share percentage, set only when the session total is positive
(the `spend_share_percentage` update). -/
def sharePct (spend total : ℚ) : Option ℚ :=
  if 0 < total then some (spend / total * 100) else none

/-- Share component: `min(share / 10, 1.0)` guarded by Python truthiness
of the optional share field. -/
def share_score (share : Option ℚ) : ℚ :=
  if qTruthy share then min (share.getD 0 / 10) 1 else 0

/-- Model of the importance score computed in `_analyze_products`:
`round(freq_score*0.3 + spend_score*0.4 + share_score*0.3, 2)`. -/
def importance_score (freq : ℕ) (spend total : ℚ) : ℚ :=
  round2 (freq_score freq * (3/10) + spend_score spend total * (4/10) +
    share_score (sharePct spend total) * (3/10))

/-- Per-product analysis record built by `_analyze_products`. -/
structure ProductStats where
  pid : ℕ
  name : String
  freq : ℕ
  spend : ℚ
  score : ℚ

/-- Placeholder product record (for safe list indexing in statements). -/
def dummyStat : ProductStats := ⟨0, "", 0, 0, 0⟩

/-- Tier chosen from a cumulative spend share, as in `_assign_tiers`:
head while the share is at most 60 percent, mid_tail while at most
90 percent, else long_tail. -/
def tier_of_pct (pct : ℚ) : String :=
  if pct ≤ 6/10 then "head" else if pct ≤ 9/10 then "mid_tail" else "long_tail"

/-- Walk of `_assign_tiers`: accumulate spend over the given order and
tag every product with the tier of its cumulative share. -/
def tier_walk_go (total : ℚ) (cum : ℚ) : List ProductStats → List (ProductStats × String)
  | [] => []
  | p :: rest =>
    (p, tier_of_pct ((cum + p.spend) / total)) :: tier_walk_go total (cum + p.spend) rest

/-- Model of `_assign_tiers`: no tier is assigned for an empty product
list or a non-positive total (the early return of the source). -/
def assign_tiers (sorted_products : List ProductStats) (total : ℚ) :
    List (ProductStats × String) :=
  match sorted_products with
  | [] => []
  | p :: rest => if total ≤ 0 then [] else tier_walk_go total 0 (p :: rest)

/-- Loop of the Pareto analysis in `_analyze_products`: count products
in the given order until the cumulative spend reaches 80 percent of the
total, counting every visited product. -/
def pareto_go (total : ℚ) (cum : ℚ) (count : ℕ) : List ℚ → ℕ
  | [] => count
  | s :: rest =>
    if total * (8/10) ≤ cum + s then count + 1 else pareto_go total (cum + s) (count + 1) rest

/-- Model of the Pareto product count of `_analyze_products`. -/
def pareto_count (total : ℚ) (spends : List ℚ) : ℕ := pareto_go total 0 0 spends

/-- Output of the product-analysis step that the claims mention. -/
structure AnalysisOut where
  total_spend : ℚ
  sorted_products : List ProductStats
  tiers : List (ProductStats × String)
  pareto_product_count : ℕ
  pareto_percentage : ℚ

/-- Statistics of one product as computed in the first loop of
`_analyze_products` (spend, frequency) plus its importance score. -/
def statsOf (prices : List StagedPriceA) (total : ℚ) (pr : ℕ × String) : ProductStats :=
  let ps := pricesFor prices pr.1
  { pid := pr.1, name := pr.2, freq := ps.length, spend := product_spend ps,
    score := importance_score ps.length (product_spend ps) total }

/-- Model of `_analyze_products` for a list of staged products (id and
name) and staged prices: computes spends and importance scores, sorts by
importance score descending (the refetch from the staging store orders by
`inferred_importance_score` and the subsequent Python `sorted` with the
same key is stable), assigns tiers over that order, and runs the Pareto
count over that same order. -/
def analyze_products (products : List (ℕ × String)) (prices : List StagedPriceA) :
    AnalysisOut :=
  let total := (products.map (fun pr => product_spend (pricesFor prices pr.1))).sum
  let stats := products.map (statsOf prices total)
  let sortedP := sortDesc (fun p => p.score) stats
  let pcount := pareto_count total (sortedP.map (fun p => p.spend))
  { total_spend := total
    sorted_products := sortedP
    tiers := assign_tiers sortedP total
    pareto_product_count := pcount
    pareto_percentage := if products = [] then 0 else (pcount : ℚ) / products.length * 100 }

end Frepi.Analysis

namespace Frepi.Analysis

/-- Prefix sum of the spends of the first `k` products of a list. -/
def prefixSpend (stats : List ProductStats) (k : ℕ) : ℚ :=
  ((stats.take k).map (fun p => p.spend)).sum

/-- Modelled from the spec wording of the tiering and Pareto claims:
products taken in spend-descending order (the source instead walks them
in importance-score-descending order). -/
def specSortBySpendDesc (stats : List ProductStats) : List ProductStats :=
  sortDesc (fun p => p.spend) stats

/-- Modelled from the spec wording: the products lying within the top
cumulative 60 percent of spend, taken in spend-descending order. -/
def specTopCumGo (total cum : ℚ) : List ProductStats → List ProductStats
  | [] => []
  | p :: rest =>
    if cum + p.spend ≤ (6/10) * total then p :: specTopCumGo total (cum + p.spend) rest
    else []

/-- Modelled from the spec wording: top cumulative 60 percent of spend. -/
def specTop60BySpend (stats : List ProductStats) (total : ℚ) : List ProductStats :=
  specTopCumGo total 0 (specSortBySpendDesc stats)

/-- Modelled from the spec wording of the Pareto claim: number of top
products by total spend (spend-descending order) needed for cumulative
spend to reach 80 percent of total spend. -/
def specParetoCount (stats : List ProductStats) (total : ℚ) : ℕ :=
  pareto_count total ((specSortBySpendDesc stats).map (fun p => p.spend))

/-- Modelled from the spec wording of the importance-score claim
(claim C5): the literal formula
`0.3*min(f/10,1) + 0.4*min(spend/(total*0.2),1) + 0.3*min(share/10,1)`
rounded to two decimals, with `share = spend/total*100`. -/
def specImportance (freq : ℕ) (spend total : ℚ) : ℚ :=
  round2 ((3/10) * min ((freq : ℚ) / 10) 1 + (4/10) * min (spend / (total * (2/10))) 1 +
    (3/10) * min ((spend / total * 100) / 10) 1)

/-- Model of `statistics.mean` on a non-empty list. -/
def meanL (l : List ℚ) : ℚ := l.sum / l.length

/-- Model of Python `min(list)` on a non-empty list (`0` on empty). -/
def minL : List ℚ → ℚ
  | [] => 0
  | x :: xs => xs.foldl min x

/-- Model of Python `max(list)` on a non-empty list (`0` on empty). -/
def maxL : List ℚ → ℚ
  | [] => 0
  | x :: xs => xs.foldl max x

/-- Per-product output of `_analyze_prices`: the stored `PriceRange`
fields plus the confidence of the emitted `price_max` preference. -/
structure PriceRangeOut where
  min_price : ℚ
  max_price : ℚ
  avg_price : ℚ
  suggested_max : ℚ
  variance_percentage : ℚ
  preference_confidence : ℚ

/-- Model of the body of `_analyze_prices` for one product, applied to
its truthy unit prices: variance percentage `(max-min)/avg*100` (with a
zero guard on the average), suggested maximum `avg*1.2` when the
variance exceeds 20 percent else `max*1.1`, and a `price_max`
preference confidence of `0.8` when the variance is strictly below 20
percent else `0.6`. -/
def analyze_price_range (unit_prices : List ℚ) : PriceRangeOut :=
  let mn := minL unit_prices
  let mx := maxL unit_prices
  let avg := meanL unit_prices
  let variance_pct := if 0 < avg then (mx - mn) / avg * 100 else 0
  let suggested := if 20 < variance_pct then avg * (12/10) else mx * (11/10)
  { min_price := round2 mn
    max_price := round2 mx
    avg_price := round2 avg
    suggested_max := round2 suggested
    variance_percentage := round1 variance_pct
    preference_confidence := if variance_pct < 20 then 8/10 else 6/10 }

end Frepi.Analysis

namespace Frepi.Brand

open Frepi.Analysis

/-- Staged product fields read by `_analyze_brand_preferences`. -/
structure ProductB where
  product_name : String
  brand : Option String
  purchase_frequency : Option ℕ
  total_spend : ℚ

/-- Model of `_get_base_product_name`: lowercase, split into words, keep
the first two, join with one space. -/
def get_base_product_name (product_name : String) : String :=
  " ".intercalate ((wordsOf product_name).take 2)

/-- Append a product to the group of its base name, keeping the
insertion order of a Python dict of lists. -/
def addToGroups (k : String) (p : ProductB) :
    List (String × List ProductB) → List (String × List ProductB)
  | [] => [(k, [p])]
  | (k0, l0) :: rest =>
    if k0 = k then (k0, l0 ++ [p]) :: rest else (k0, l0) :: addToGroups k p rest

/-- Model of the grouping loop of `_analyze_brand_preferences`: only
brand-tagged products take part, grouped by base name. -/
def product_groups (products : List ProductB) : List (String × List ProductB) :=
  products.foldl
    (fun gs p =>
      if strTruthy p.brand then addToGroups (get_base_product_name p.product_name) p gs
      else gs)
    []

/-- Python `product.purchase_frequency or 1`. -/
def freqOr1 : Option ℕ → ℕ
  | none => 1
  | some n => if n = 0 then 1 else n

/-- Add `n` to the count of brand `k` in an insertion-ordered counter. -/
def bumpCount (k : String) (n : ℕ) : List (String × ℕ) → List (String × ℕ)
  | [] => [(k, n)]
  | (k0, c) :: rest =>
    if k0 = k then (k0, c + n) :: rest else (k0, c) :: bumpCount k n rest

/-- Purchase counts per brand inside one group (the `brand_counts`
dict; the spend accumulator of the source is never read afterwards and
is omitted). -/
def brand_counts (group : List ProductB) : List (String × ℕ) :=
  group.foldl (fun m p => bumpCount (p.brand.getD "") (freqOr1 p.purchase_frequency) m) []

/-- Detected brand preference (the `BrandPreference` record fields the
claims mention). -/
structure BrandPreferenceOut where
  product_name : String
  brand_name : String
  purchase_percentage : ℚ
  purchase_count : ℕ
  confidence : ℚ

/-- Model of the per-group body of `_analyze_brand_preferences`: groups
with fewer than two products are skipped; the top brand by purchase
count is declared dominant when it holds at least half of the total
count, with confidence `min(percentage + 0.1, 0.95)`. -/
def analyze_group (base_name : String) (group : List ProductB) : Option BrandPreferenceOut :=
  if group.length < 2 then none
  else
    let counts := brand_counts group
    let total := (counts.map (fun bc => bc.2)).sum
    if total = 0 then none
    else
      match sortDesc (fun bc => ((bc.2 : ℕ) : ℚ)) counts with
      | [] => none
      | top :: _ =>
        let percentage : ℚ := (top.2 : ℚ) / total
        if 1/2 ≤ percentage then
          some ⟨base_name, top.1, percentage, top.2, min (percentage + 1/10) (19/20)⟩
        else none

/-- Model of `_analyze_brand_preferences`: analyze every base-name
group and sort the detected preferences by purchase percentage
descending. -/
def analyze_brand_preferences (products : List ProductB) : List BrandPreferenceOut :=
  sortDesc (fun bp => bp.purchase_percentage)
    ((product_groups products).filterMap (fun g => analyze_group g.1 g.2))

end Frepi.Brand

namespace Frepi.Staging

/-- Production supplier row fields read by `_find_existing_supplier`. -/
structure ProdSupplierRow where
  id : ℕ
  company_name : String
  tax_number : Option String

/-- Staged supplier row fields written by `stage_supplier`. -/
structure StagedSupplierRow where
  company_name : String
  cnpj : Option String
  matched_supplier_id : Option ℕ
  match_confidence : Option ℚ

/-- Model of `_find_existing_supplier` (staging_service.py): an exact
CNPJ match against production wins with confidence `1.0`; otherwise a
case-insensitive `ilike` containment match of the staged name inside a
production company name gives confidence `0.85`; otherwise no match. -/
def find_existing_supplier (production : List ProdSupplierRow)
    (company_name : String) (cnpj : Option String) : Option ℕ × Option ℚ :=
  match
    (if strTruthy cnpj then production.find? (fun r => r.tax_number = cnpj) else none) with
  | some r => (some r.id, some 1)
  | none =>
    match production.find?
        (fun r => containsStr (lowerStr company_name) (lowerStr r.company_name)) with
    | some r => (some r.id, some (85/100))
    | none => (none, none)

/-- Model of `stage_supplier` (staging_service.py): the row is always
inserted; the production match only fills `matched_supplier_id`. -/
def stage_supplier (production : List ProdSupplierRow)
    (staged : List StagedSupplierRow) (company_name : String) (cnpj : Option String) :
    List StagedSupplierRow :=
  let mc := find_existing_supplier production company_name cnpj
  staged ++ [⟨company_name, cnpj, mc.1, mc.2⟩]

/-- Parsed-invoice fields read by the supplier-staging loop of
`_process_invoice_photos` (agent.py). -/
structure InvoiceIn where
  supplier_name : String
  supplier_cnpj : Option String

/-- Loop of `_process_invoice_photos` over the invoices of one photo
batch: a supplier is staged only when its name is truthy and not yet a
key of the in-memory `supplier_ids` dict, an exact string match. -/
def process_photos_go (production : List ProdSupplierRow) :
    List InvoiceIn → List String → List StagedSupplierRow → List StagedSupplierRow
  | [], _, staged => staged
  | inv :: rest, seen, staged =>
    if inv.supplier_name ≠ "" ∧ inv.supplier_name ∉ seen then
      process_photos_go production rest (inv.supplier_name :: seen)
        (stage_supplier production staged inv.supplier_name inv.supplier_cnpj)
    else
      process_photos_go production rest seen staged

/-- Model of the supplier staging performed by `_process_invoice_photos`
for one batch of parsed invoices. -/
def process_invoice_photos_suppliers (production : List ProdSupplierRow)
    (invoices : List InvoiceIn) : List StagedSupplierRow :=
  process_photos_go production invoices [] []

end Frepi.Staging

namespace Frepi.Img

/-- One line item of a parsed invoice (dataclass `InvoiceItem`). -/
structure InvoiceItemE where
  product_name : String
  quantity : ℚ
  unit : String
  unit_price : ℚ

/-- Result record of invoice parsing (dataclass `ParsedInvoice`). -/
structure ParsedInvoiceE where
  supplier_name : String
  supplier_cnpj : Option String
  invoice_date : Option String
  invoice_number : Option String
  items : List InvoiceItemE
  total_amount : Option ℚ
  confidence_score : ℚ
  raw_response : Option String

/-- One item of the decoded JSON payload, with every field optional as
in the `dict.get` reads of the source. -/
structure ItemJson where
  product_name : Option String
  quantity : Option ℚ
  unit : Option String
  unit_price : Option ℚ

/-- Decoded JSON payload of the vision response (`json.loads` output). -/
structure InvoiceJson where
  supplier_name : Option String
  supplier_cnpj : Option String
  invoice_date : Option String
  invoice_number : Option String
  items : List ItemJson
  total_amount : Option ℚ
  confidence_score : Option ℚ

/-- Model of the markdown-fence stripping in `parse_invoice_image`:
prefer cutting at a ```json fence, else at a plain ``` fence. -/
def strip_markdown_fences (response_text : String) : String :=
  if containsStr "```json" response_text then
    (splitOnStr "```" ((splitOnStr "```json" response_text).getD 1 "")).getD 0 ""
  else if containsStr "```" response_text then
    (splitOnStr "```" ((splitOnStr "```" response_text).getD 1 "")).getD 0 ""
  else response_text

/-- Build the success result from a decoded payload, with the default
values of the source (`Unknown` name, quantity `1`, unit `un`, price
`0`, confidence `0.8`). -/
def invoiceOfJson (response_text : String) (d : InvoiceJson) : ParsedInvoiceE :=
  { supplier_name := d.supplier_name.getD "Unknown"
    supplier_cnpj := d.supplier_cnpj
    invoice_date := d.invoice_date
    invoice_number := d.invoice_number
    items := d.items.map (fun it =>
      ⟨it.product_name.getD "Unknown", it.quantity.getD 1, it.unit.getD "un",
        it.unit_price.getD 0⟩)
    total_amount := d.total_amount
    confidence_score := d.confidence_score.getD (8/10)
    raw_response := some response_text }

/-- Model of `parse_invoice_image` after the external calls: `response`
is the outcome of the download plus vision call (an exception there is
the generic handler, sentinel name `Error`), and `decode` abstracts
`json.loads` (a decode error is the `JSONDecodeError` handler, sentinel
name `Parse Error`); both sentinels carry confidence `0.0` and the
function always returns a value instead of raising. -/
def parse_invoice_image (decode : String → Except String InvoiceJson)
    (response : Except String String) : ParsedInvoiceE :=
  match response with
  | .error e =>
    { supplier_name := "Error", supplier_cnpj := none, invoice_date := none,
      invoice_number := none, items := [], total_amount := none,
      confidence_score := 0, raw_response := some e }
  | .ok response_text =>
    match decode (stripStr (strip_markdown_fences response_text)) with
    | .error e =>
      { supplier_name := "Parse Error", supplier_cnpj := none, invoice_date := none,
        invoice_number := none, items := [], total_amount := none,
        confidence_score := 0, raw_response := some e }
    | .ok d => invoiceOfJson response_text d

/-- Keep-condition of `parse_multiple_invoices`. -/
def parseOk (r : ParsedInvoiceE) : Bool :=
  r.supplier_name ≠ "Error" && r.supplier_name ≠ "Parse Error"

/-- Model of `parse_multiple_invoices`: every photo URL is parsed
independently (`fetch` abstracts the download plus vision call per URL)
and failed parses are filtered out, keeping the order of the rest. -/
def parse_multiple_invoices (decode : String → Except String InvoiceJson)
    (fetch : String → Except String String) (image_urls : List String) :
    List ParsedInvoiceE :=
  (image_urls.map (fun url => parse_invoice_image decode (fetch url))).filter parseOk

end Frepi.Img

namespace Frepi.Commit

/-- Staged supplier fields read and written by the commit steps. -/
structure StSupplier where
  sid : ℕ
  company_name : String
  matched_supplier_id : Option ℕ
  committed_supplier_id : Option ℕ

/-- Staged product fields read and written by the commit steps. -/
structure StProduct where
  pid : ℕ
  product_name : String
  staging_supplier_id : Option ℕ
  matched_master_list_id : Option ℕ
  committed_master_list_id : Option ℕ
  embedding_generated : Bool
  inferred_importance_score : Option ℚ
  importance_tier : Option String
  total_spend : Option ℚ
  spend_share_percentage : Option ℚ
  avg_unit_price : Option ℚ
  extraction_confidence : Option ℚ

/-- Staged price fields read by `_commit_prices`. -/
structure StPrice where
  staging_supplier_id : Option ℕ
  staging_product_id : Option ℕ
  unit_price : ℚ
  invoice_date : Option String

/-- Staged preference fields read by `_commit_preferences`; the JSON
payload is kept opaque. -/
structure StPref where
  staging_product_id : Option ℕ
  preference_type : String
  payload : String

/-- Production restaurant row (insertion of `_commit_restaurant` plus
the `ordering_frequency` update of `_commit_preferences`). -/
structure RestaurantRow where
  id : ℕ
  name : Option String
  ordering_frequency : Option (List String)

/-- Production supplier row fields inserted by `_commit_suppliers`. -/
structure SupplierRow where
  id : ℕ
  company_name : String

/-- Production master-list row fields inserted by `_commit_products`. -/
structure MasterRow where
  id : ℕ
  product_name : String
  restaurant_id : ℕ
  popularity_score : ℚ

/-- Production supplier-product mapping row. -/
structure SmpRow where
  id : ℕ
  supplier_id : ℕ
  master_list_id : ℕ
  current_unit_price : ℚ

/-- Production pricing-history row. -/
structure PricingRow where
  supplier_id : ℕ
  master_list_id : ℕ
  smp_id : Option ℕ
  unit_price : ℚ

/-- Production restaurant-product preference row; the per-type
sub-fields are summarised by the list of written preference types. -/
structure PrefRow where
  restaurant_id : ℕ
  master_list_id : ℕ
  written_types : List String

/-- Preference-collection queue row. -/
structure QueueRow where
  restaurant_id : ℕ
  master_list_id : ℕ
  queue_position : ℕ
  importance_tier : String

/-- Engagement profile row created by `_create_engagement_profile`. -/
structure EngRow where
  restaurant_id : ℕ
  engagement_score : ℚ
  engagement_level : String
  drip_questions_per_session : ℕ
  onboarding_depth : ℕ

/-- Production contact-person row. -/
structure PersonRow where
  id : ℕ
  restaurant_id : ℕ

/-- Production tables plus the id allocator of the store. -/
structure Db where
  next_id : ℕ
  restaurants : List RestaurantRow
  restaurant_people : List PersonRow
  suppliers : List SupplierRow
  master_list : List MasterRow
  supplier_mapped_products : List SmpRow
  pricing_history : List PricingRow
  product_preferences : List PrefRow
  preference_queue : List QueueRow
  engagement_profiles : List EngRow

/-- Allocate a fresh production id. -/
def fresh (db : Db) : ℕ × Db := (db.next_id, { db with next_id := db.next_id + 1 })

/-- Whole state seen by `commit_onboarding`: production store, session
row fields, and the staging tables of the session. -/
structure CommitSt where
  db : Db
  session_status : String
  restaurant_name : Option String
  engagement_choice : Option ℤ
  st_suppliers : List StSupplier
  st_products : List StProduct
  st_prices : List StPrice
  st_prefs : List StPref

/-- Step 1, `_commit_restaurant`: always inserts a new restaurant row. -/
def commit_restaurant (s : CommitSt) : CommitSt × ℕ :=
  let (rid, db) := fresh s.db
  ({ s with db :=
      { db with restaurants := db.restaurants ++ [⟨rid, s.restaurant_name, none⟩] } },
    rid)

/-- Step 2, `_commit_restaurant_person`: always inserts a new person. -/
def commit_restaurant_person (rid : ℕ) (s : CommitSt) : CommitSt × ℕ :=
  let (person_id, db) := fresh s.db
  ({ s with db :=
      { db with restaurant_people := db.restaurant_people ++ [⟨person_id, rid⟩] } },
    person_id)

/-- Loop of `_commit_suppliers`: a staged supplier matched to an
existing production supplier reuses that id; otherwise a new supplier
row is inserted (no existence check) and the staging row records the
committed id.  The mapping from staging id to production id is built in
iteration order. -/
def commit_suppliers_go :
    List StSupplier → CommitSt → List (ℕ × ℕ) → CommitSt × List (ℕ × ℕ)
  | [], s, m => (s, m)
  | st :: rest, s, m =>
    match st.matched_supplier_id with
    | some pid => commit_suppliers_go rest s (m ++ [(st.sid, pid)])
    | none =>
      let (pid, db) := fresh s.db
      let db2 := { db with suppliers := db.suppliers ++ [⟨pid, st.company_name⟩] }
      let s2 := { s with
        db := db2
        st_suppliers := s.st_suppliers.map (fun x =>
          if x.sid = st.sid then { x with committed_supplier_id := some pid } else x) }
      commit_suppliers_go rest s2 (m ++ [(st.sid, pid)])

/-- Step 3, `_commit_suppliers`, on the supplier list fetched at the
start of the step. -/
def commit_suppliers (staged : List StSupplier) (s : CommitSt) :
    CommitSt × List (ℕ × ℕ) :=
  commit_suppliers_go staged s []

/-- Step 4, `_generate_product_embeddings`: marks every staged product
that lacks an embedding and is not matched to an existing catalog
entry. -/
def generate_product_embeddings (staged : List StProduct) (s : CommitSt) : CommitSt :=
  let ids := (staged.filter
    (fun p => ¬ p.embedding_generated ∧ p.matched_master_list_id = none)).map
      (fun p => p.pid)
  { s with st_products := s.st_products.map (fun p =>
      if p.pid ∈ ids then { p with embedding_generated := true } else p) }

/-- Loop of `_commit_products`: matched products reuse the catalog id;
unmatched products are inserted into the master list (no existence
check) with `inferred_importance_score or 0` as popularity score. -/
def commit_products_go (rid : ℕ) :
    List StProduct → CommitSt → List (ℕ × ℕ) → CommitSt × List (ℕ × ℕ)
  | [], s, m => (s, m)
  | st :: rest, s, m =>
    match st.matched_master_list_id with
    | some mid => commit_products_go rid rest s (m ++ [(st.pid, mid)])
    | none =>
      let (mid, db) := fresh s.db
      let db2 := { db with master_list := db.master_list ++
        [⟨mid, st.product_name, rid, st.inferred_importance_score.getD 0⟩] }
      let s2 := { s with
        db := db2
        st_products := s.st_products.map (fun x =>
          if x.pid = st.pid then { x with committed_master_list_id := some mid } else x) }
      commit_products_go rid rest s2 (m ++ [(st.pid, mid)])

/-- Step 5, `_commit_products`, on the product list fetched at step 4. -/
def commit_products (rid : ℕ) (staged : List StProduct) (s : CommitSt) :
    CommitSt × List (ℕ × ℕ) :=
  commit_products_go rid staged s []

end Frepi.Commit

namespace Frepi.Commit

/-- Existence test of `_commit_supplier_mappings` and `_commit_prices`:
first supplier-product mapping row with the given production id pair. -/
def findSmp (rows : List SmpRow) (sup mid : ℕ) : Option SmpRow :=
  rows.find? (fun r => r.supplier_id = sup ∧ r.master_list_id = mid)

/-- Loop of `_commit_supplier_mappings` (step 6): for every staged
product with resolvable production ids, insert a mapping row only when
none with the same `(supplier_id, master_list_id)` pair exists. -/
def commit_supplier_mappings_go (sm pm : List (ℕ × ℕ)) :
    List StProduct → Db → Db
  | [], db => db
  | st :: rest, db =>
    match st.staging_supplier_id with
    | none => commit_supplier_mappings_go sm pm rest db
    | some ssid =>
      match alookup sm ssid, alookup pm st.pid with
      | some sup_id, some mid =>
        if (findSmp db.supplier_mapped_products sup_id mid).isSome then
          commit_supplier_mappings_go sm pm rest db
        else
          let (i, db2) := fresh db
          commit_supplier_mappings_go sm pm rest
            { db2 with supplier_mapped_products := db2.supplier_mapped_products ++
                [⟨i, sup_id, mid, st.avg_unit_price.getD 0⟩] }
      | _, _ => commit_supplier_mappings_go sm pm rest db

/-- Step 6 on the product list fetched at step 4. -/
def commit_supplier_mappings (staged : List StProduct) (sm pm : List (ℕ × ℕ))
    (s : CommitSt) : CommitSt :=
  { s with db := commit_supplier_mappings_go sm pm staged s.db }

/-- Refresh of the cached current price on a mapping row after a price
insert (`_commit_prices`). -/
def refreshSmpPrice (rows : List SmpRow) (smp_id : ℕ) (price : ℚ) : List SmpRow :=
  rows.map (fun r => if r.id = smp_id then { r with current_unit_price := price } else r)

/-- Loop of `_commit_prices` (step 7): every staged price with
resolvable supplier and product ids is inserted into pricing history
(no existence check), carrying the mapping id when one exists, and the
mapping row refreshes its cached price. -/
def commit_prices_go (sm pm : List (ℕ × ℕ)) :
    List StPrice → Db → ℕ → Db × ℕ
  | [], db, committed => (db, committed)
  | st :: rest, db, committed =>
    match st.staging_supplier_id, st.staging_product_id with
    | some ssid, some spid =>
      match alookup sm ssid, alookup pm spid with
      | some sup_id, some mid =>
        let smp_id := (findSmp db.supplier_mapped_products sup_id mid).map (fun r => r.id)
        let db2 := { db with pricing_history := db.pricing_history ++
          [⟨sup_id, mid, smp_id, st.unit_price⟩] }
        let db3 :=
          match smp_id with
          | some i =>
            { db2 with supplier_mapped_products :=
                refreshSmpPrice db2.supplier_mapped_products i st.unit_price }
          | none => db2
        commit_prices_go sm pm rest db3 (committed + 1)
      | _, _ => commit_prices_go sm pm rest db committed
    | _, _ => commit_prices_go sm pm rest db committed

/-- Step 7 on the price list fetched at its start. -/
def commit_prices (staged : List StPrice) (sm pm : List (ℕ × ℕ)) (s : CommitSt) :
    CommitSt × ℕ :=
  let (db, n) := commit_prices_go sm pm staged s.db 0
  ({ s with db := db }, n)

/-- Grouping of product-scoped staged preferences by staging product id,
in insertion order (the `prefs_by_product` dict of step 8). -/
def groupPrefs (k : ℕ) (p : StPref) :
    List (ℕ × List StPref) → List (ℕ × List StPref)
  | [] => [(k, [p])]
  | (k0, l0) :: rest =>
    if k0 = k then (k0, l0 ++ [p]) :: rest else (k0, l0) :: groupPrefs k p rest

/-- Product-scoped preferences grouped by product; global preferences
(no staging product id) are collected separately. -/
def prefs_by_product (staged : List StPref) :
    List (ℕ × List StPref) × List StPref :=
  staged.foldl
    (fun acc p =>
      match p.staging_product_id with
      | some k => (groupPrefs k p acc.1, acc.2)
      | none => (acc.1, acc.2 ++ [p]))
    ([], [])

/-- Upsert of one grouped preference record in step 8: when a row for
the `(restaurant, master product)` pair exists it is updated, otherwise
a new row is inserted. -/
def upsertPref (rid mid : ℕ) (types : List String) (rows : List PrefRow) : List PrefRow :=
  if (rows.find? (fun r => r.restaurant_id = rid ∧ r.master_list_id = mid)).isSome then
    rows.map (fun r =>
      if r.restaurant_id = rid ∧ r.master_list_id = mid then
        { r with written_types := types }
      else r)
  else rows ++ [⟨rid, mid, types⟩]

/-- Loop of `_commit_preferences` over the grouped product-scoped
preferences: a group without a committed product id is skipped. -/
def commit_preferences_go (rid : ℕ) (pm : List (ℕ × ℕ)) :
    List (ℕ × List StPref) → Db → ℕ → Db × ℕ
  | [], db, committed => (db, committed)
  | (spid, prefs) :: rest, db, committed =>
    match alookup pm spid with
    | none => commit_preferences_go rid pm rest db committed
    | some mid =>
      let types := prefs.map (fun p => p.preference_type)
      commit_preferences_go rid pm rest
        { db with product_preferences := upsertPref rid mid types db.product_preferences }
        (committed + 1)

/-- Step 8, `_commit_preferences`: product-scoped preferences are
upserted per `(restaurant, product)` pair; global delivery-day
preferences are stored on the restaurant row. -/
def commit_preferences (staged : List StPref) (rid : ℕ) (pm : List (ℕ × ℕ))
    (s : CommitSt) : CommitSt × ℕ :=
  let (grouped, globals) := prefs_by_product staged
  let (db, n) := commit_preferences_go rid pm grouped s.db 0
  let delivery := globals.filter (fun p => p.preference_type = "delivery_day")
  let db2 :=
    if delivery.isEmpty then db
    else { db with restaurants := db.restaurants.map (fun r =>
      if r.id = rid then { r with ordering_frequency := some (delivery.map (fun p => p.payload)) }
      else r) }
  ({ s with db := db2 }, n)

/-- Queue construction of `_populate_preference_queue` (step 9):
products sorted by importance score descending, positions enumerated
over the sorted list before the mapping filter, products without a
committed id skipped. -/
def populate_queue_go (rid : ℕ) (pm : List (ℕ × ℕ)) :
    ℕ → List StProduct → List QueueRow
  | _, [] => []
  | pos, st :: rest =>
    match alookup pm st.pid with
    | none => populate_queue_go rid pm (pos + 1) rest
    | some mid =>
      ⟨rid, mid, pos, st.importance_tier.getD "long_tail"⟩ ::
        populate_queue_go rid pm (pos + 1) rest

/-- Step 9 on the product list fetched at step 4. -/
def populate_preference_queue (staged : List StProduct) (rid : ℕ)
    (pm : List (ℕ × ℕ)) (s : CommitSt) : CommitSt :=
  let sorted := sortDesc (fun p => p.inferred_importance_score.getD 0) staged
  { s with db := { s.db with
      preference_queue := s.db.preference_queue ++ populate_queue_go rid pm 1 sorted } }

/-- Depth mapping of `_create_engagement_profile`:
choice 0 or 3 means skip, 1 means quick (depth 5), 2 means full
(depth 10), anything else skip. -/
def depth_map (choice : ℤ) : ℕ :=
  if choice = 0 then 0 else if choice = 3 then 0
  else if choice = 1 then 5 else if choice = 2 then 10 else 0

/-- Depth signal of the initial engagement score:
`{0: 0.0, 5: 0.5, 10: 1.0}` with default `0.0`. -/
def depth_signal (d : ℕ) : ℚ :=
  if d = 0 then 0 else if d = 5 then 1/2 else if d = 10 then 1 else 0

/-- Level thresholds of `_create_engagement_profile`: high from `0.65`
(2 drip questions), medium from `0.35` (1 question), else low (0). -/
def engagement_level_of (score : ℚ) : String × ℕ :=
  if 65/100 ≤ score then ("high", 2)
  else if 35/100 ≤ score then ("medium", 1)
  else ("low", 0)

/-- Model of `_create_engagement_profile` (step 10): the session
engagement choice (`or 0` on a missing value) is mapped to a depth, the
initial score is `round(0.15 * depth_signal, 2)`, and the level and
drip budget follow the thresholds. -/
def create_engagement_profile (engagement_choice : Option ℤ) (rid : ℕ) : EngRow :=
  let choice := engagement_choice.getD 0
  let d := depth_map choice
  let score := round2 ((15/100) * depth_signal d)
  let lv := engagement_level_of score
  ⟨rid, score, lv.1, lv.2, d⟩

/-- Step 10 as a state update. -/
def create_engagement_profile_step (rid : ℕ) (s : CommitSt) : CommitSt :=
  { s with db := { s.db with engagement_profiles := s.db.engagement_profiles ++
      [create_engagement_profile s.engagement_choice rid] } }

/-- Step 11, `_finalize_session`: the session status becomes committed. -/
def finalize_session (s : CommitSt) : CommitSt :=
  { s with session_status := "committed" }

/-- Counts reported by a commit run. -/
structure CommitResultC where
  success : Bool
  suppliers_committed : ℕ
  products_committed : ℕ
  prices_committed : ℕ
  preferences_committed : ℕ

/-- Model of the happy path of `commit_onboarding`: the eleven steps in
source order, each reading the staging snapshot its source line fetches;
there is no status guard, so a second call re-runs every step. -/
def commit_onboarding (s0 : CommitSt) : CommitSt × CommitResultC :=
  let r1 := commit_restaurant s0
  let rid := r1.2
  let r2 := commit_restaurant_person rid r1.1
  let staged_suppliers := r2.1.st_suppliers
  let r3 := commit_suppliers staged_suppliers r2.1
  let sm := r3.2
  let staged_products := r3.1.st_products
  let s4 := generate_product_embeddings staged_products r3.1
  let r5 := commit_products rid staged_products s4
  let pm := r5.2
  let s6 := commit_supplier_mappings staged_products sm pm r5.1
  let staged_prices := s6.st_prices
  let r7 := commit_prices staged_prices sm pm s6
  let staged_prefs := r7.1.st_prefs
  let r8 := commit_preferences staged_prefs rid pm r7.1
  let s9 := populate_preference_queue staged_products rid pm r8.1
  let s10 := create_engagement_profile_step rid s9
  let s11 := finalize_session s10
  (s11, ⟨true, sm.length, pm.length, r7.2, r8.2⟩)

end Frepi.Commit

namespace Frepi.CommitFlow

/-- Session state for the error-handling model of `commit_onboarding`:
the session status plus an abstract view `δ` of every table the
production steps write.  None of steps 1 to 10 of the source writes the
session status, so the steps act on `δ` only. -/
structure SessState (δ : Type) where
  status : String
  db : δ

/-- Result fields of `CommitResult` relevant to error handling. -/
structure CommitResultE where
  success : Bool
  errors : List String

/-- Run the production steps in order; a step either completes (its
writes applied) or throws, in which case the state reached so far is
kept (the source performs no rollback) and the error is reported. -/
def run_steps {δ : Type} : List (δ → Except String δ) → δ → δ × Option String
  | [], db => (db, none)
  | f :: fs, db =>
    match f db with
    | .error e => (db, some e)
    | .ok db2 => run_steps fs db2

/-- Step 11, `_finalize_session`, which is the only writer of the
session status; `fin_err` injects a store failure of that final update
(in which case the status write does not happen). -/
def finalize_abs {δ : Type} (fin_err : Option String) (s : SessState δ) :
    Except String (SessState δ) :=
  match fin_err with
  | some e => .error e
  | none => .ok { s with status := "committed" }

/-- Model of the control flow of `commit_onboarding`: the production
steps run in order inside one try block; any exception is caught once
at the top level, appended to the fresh result `errors` list, and the
function returns the result instead of raising; `success` is set only
after the finalizing step. -/
def commit_onboarding_flow {δ : Type} (steps : List (δ → Except String δ))
    (fin_err : Option String) (s : SessState δ) : SessState δ × CommitResultE :=
  match run_steps steps s.db with
  | (db2, some e) => ({ s with db := db2 }, ⟨false, [e]⟩)
  | (db2, none) =>
    match finalize_abs fin_err { s with db := db2 } with
    | .error e => ({ s with db := db2 }, ⟨false, [e]⟩)
    | .ok s2 => (s2, ⟨true, []⟩)

end Frepi.CommitFlow

namespace Frepi.Examples

open Frepi.Analysis Frepi.Brand Frepi.Staging Frepi.Commit

/-- Two-product session refuting the spend-descending tier walk: product
1 has one purchase of spend 100, product 2 has ten purchases of spend 9
each (total spend 190). -/
def productsC2 : List (ℕ × String) := [(1, "picanha"), (2, "arroz")]

/-- Staged prices of the C2 session. -/
def pricesC2 : List StagedPriceA :=
  ⟨some 1, 100, some 1, none⟩ :: List.replicate 10 ⟨some 2, 9, some 1, none⟩

/-- Analysis output of the C2 session. -/
def outC2 : AnalysisOut := analyze_products productsC2 pricesC2

/-- Three-product session refuting the spend-descending Pareto count:
spends 80, 11 and 9 with frequencies 1, 10 and 1 (total spend 100). -/
def productsC3 : List (ℕ × String) := [(1, "carne"), (2, "tomate"), (3, "sal")]

/-- Staged prices of the C3 session. -/
def pricesC3 : List StagedPriceA :=
  ⟨some 1, 80, some 1, none⟩ ::
    (List.replicate 10 ⟨some 2, (11 : ℚ)/10, some 1, none⟩ ++ [⟨some 3, 9, some 1, none⟩])

/-- Analysis output of the C3 session. -/
def outC3 : AnalysisOut := analyze_products productsC3 pricesC3

/-- Ten-product session for the amended Pareto statement: the top three
products by importance score (spends 400, 250, 150 with frequencies 10,
9, 8) account for exactly 80 percent of a total spend of 1000, followed
by five products of spend 30 and two of spend 25, each bought once. -/
def productsC3b : List (ℕ × String) :=
  [(1, "p1"), (2, "p2"), (3, "p3"), (4, "p4"), (5, "p5"),
    (6, "p6"), (7, "p7"), (8, "p8"), (9, "p9"), (10, "p10")]

/-- Staged prices of the ten-product session. -/
def pricesC3b : List StagedPriceA :=
  List.replicate 10 ⟨some 1, 40, some 1, none⟩ ++
    (List.replicate 9 ⟨some 2, (250 : ℚ)/9, some 1, none⟩ ++
      (List.replicate 8 ⟨some 3, (150 : ℚ)/8, some 1, none⟩ ++
        [⟨some 4, 30, some 1, none⟩, ⟨some 5, 30, some 1, none⟩,
          ⟨some 6, 30, some 1, none⟩, ⟨some 7, 30, some 1, none⟩,
          ⟨some 8, 30, some 1, none⟩, ⟨some 9, 25, some 1, none⟩,
          ⟨some 10, 25, some 1, none⟩]))

/-- Analysis output of the ten-product session. -/
def outC3b : AnalysisOut := analyze_products productsC3b pricesC3b

/-- Two brand-tagged products sharing the base name arroz branco, with
a 4 versus 6 purchase split between the brands. -/
def brandSplit46 : List ProductB :=
  [⟨"Arroz Branco X", some "MarcaA", some 4, 0⟩,
    ⟨"Arroz Branco Y", some "MarcaB", some 6, 0⟩]

/-- Two brand-tagged products with a 7 versus 3 purchase split. -/
def brandSplit73 : List ProductB :=
  [⟨"Arroz Branco X", some "MarcaA", some 7, 0⟩,
    ⟨"Arroz Branco Y", some "MarcaB", some 3, 0⟩]

/-- Three brand-tagged products with a 4/3/3 split, whose top brand is
below the 50 percent threshold. -/
def brandSplit433 : List ProductB :=
  [⟨"Arroz Branco X", some "MarcaA", some 4, 0⟩,
    ⟨"Arroz Branco Y", some "MarcaB", some 3, 0⟩,
    ⟨"Arroz Branco Z", some "MarcaC", some 3, 0⟩]

/-- One photo batch carrying the same supplier name in two casings. -/
def invoicesC4 : List InvoiceIn := [⟨"Marfrig", none⟩, ⟨"MARFRIG", none⟩]

/-- Staged suppliers produced from that batch with no production data. -/
def stagedC4 : List StagedSupplierRow := process_invoice_photos_suppliers [] invoicesC4

/-- Empty production store with the id allocator at 1. -/
def emptyDb : Db := ⟨1, [], [], [], [], [], [], [], [], []⟩

/-- Session state for the C1 counterexample: one unmatched staged
supplier and one unmatched staged product linked to it, ready for
commit. -/
def stC1 : CommitSt :=
  { db := emptyDb
    session_status := "pending_confirmation"
    restaurant_name := some "Resto"
    engagement_choice := some 1
    st_suppliers := [⟨21, "Marfrig", none, none⟩]
    st_products := [⟨31, "Picanha", some 21, none, none, false, some (1/2), some "head",
      some 100, some 50, some 10, some (85/100)⟩]
    st_prices := []
    st_prefs := [] }

/-- State after one commit of the C1 session. -/
def stC1once : CommitSt := (commit_onboarding stC1).1

/-- State after two commits of the C1 session with no intervening
staged-data change. -/
def stC1twice : CommitSt := (commit_onboarding stC1once).1

end Frepi.Examples

namespace Frepi.Commit

/-- Production id pair of a staged product under fixed supplier and
product mappings, when resolvable (the guard of step 6). -/
def smpKey (sm pm : List (ℕ × ℕ)) (st : StProduct) : Option (ℕ × ℕ) :=
  match st.staging_supplier_id with
  | none => none
  | some ssid =>
    match alookup sm ssid, alookup pm st.pid with
    | some sup_id, some mid => some (sup_id, mid)
    | _, _ => none

end Frepi.Commit

namespace Frepi.Staging

/-- Placeholder staged supplier row (for safe list indexing). -/
def dummySupRow : StagedSupplierRow :=
  { company_name := "", cnpj := none, matched_supplier_id := none, match_confidence := none }

end Frepi.Staging

namespace Frepi.Examples

open Frepi.Img Frepi.CommitFlow

/-- Decoder that always fails, standing for `json.loads` on text that is
not JSON. -/
def decodeFail : String → Except String InvoiceJson :=
  fun _ => .error "Expecting value"

/-- A fixed decoded payload. -/
def okJson : InvoiceJson :=
  ⟨some "Marfrig", none, some "01/02/2024", none, [], some 575, some (9/10)⟩

/-- Decoder that always succeeds with the fixed payload. -/
def decodeOk : String → Except String InvoiceJson := fun _ => .ok okJson

/-- Fetcher for which one photo URL downloads and one fails. -/
def fetchW : String → Except String String :=
  fun url => if url = "photo1" then .ok "raw" else .error "timeout"

/-- Production steps for the commit-flow witness: the first succeeds,
the second throws. -/
def stepsW : List (ℕ → Except String ℕ) :=
  [fun n => .ok (n + 1), fun _ => .error "boom", fun n => .ok (n + 7)]

/-- Session state for the commit-flow witness. -/
def sessW : SessState ℕ := ⟨"pending_confirmation", 0⟩

end Frepi.Examples

namespace Frepi

theorem round2_mono {x y : ℚ} (h : x ≤ y) : round2 x ≤ round2 y := by
  unfold round2
  have h2 : round (x * 100) ≤ round (y * 100) := by
    rw [round_eq, round_eq]
    exact Int.floor_mono (by linarith)
  have h3 : ((round (x * 100) : ℤ) : ℚ) ≤ ((round (y * 100) : ℤ) : ℚ) := by
    exact_mod_cast h2
  linarith

theorem round2_zero : round2 0 = 0 := by norm_num [round2]

theorem round2_one : round2 1 = 1 := by norm_num [round2, round_eq]

theorem round2_nonneg {x : ℚ} (h : 0 ≤ x) : 0 ≤ round2 x := by
  have h2 := round2_mono h
  rwa [round2_zero] at h2

theorem round2_le_one {x : ℚ} (h : x ≤ 1) : round2 x ≤ 1 := by
  have h2 := round2_mono h
  rwa [round2_one] at h2

theorem mem_insertDesc {α : Type} (key : α → ℚ) (a x : α) (l : List α) :
    x ∈ insertDesc key a l ↔ x = a ∨ x ∈ l := by
  induction l with
  | nil => simp [insertDesc]
  | cons y ys ih =>
    by_cases hk : key a < key y
    · simp only [insertDesc, if_pos hk, List.mem_cons, ih]
      tauto
    · simp [insertDesc, if_neg hk]

theorem mem_sortDesc {α : Type} (key : α → ℚ) (x : α) (l : List α) :
    x ∈ sortDesc key l ↔ x ∈ l := by
  induction l with
  | nil => simp [sortDesc]
  | cons y ys ih => simp [sortDesc, mem_insertDesc, ih]

theorem find?_isSome_append {α : Type} (p : α → Bool) (l1 l2 : List α)
    (h : (l1.find? p).isSome) : ((l1 ++ l2).find? p).isSome := by
  induction l1 with
  | nil => simp at h
  | cons a l ih =>
    rw [List.cons_append]
    by_cases hp : p a
    · simp [List.find?_cons_of_pos _ hp]
    · rw [List.find?_cons_of_neg _ hp] at h
      rw [List.find?_cons_of_neg _ hp]
      exact ih h

end Frepi

namespace Frepi.Analysis

theorem tier_walk_go_length (total : ℚ) :
    ∀ (l : List ProductStats) (cum : ℚ), (tier_walk_go total cum l).length = l.length := by
  intro l
  induction l with
  | nil => intro cum; rfl
  | cons p rest ih => intro cum; simp [tier_walk_go, ih]

theorem tier_walk_go_getD (total : ℚ) :
    ∀ (l : List ProductStats) (cum : ℚ) (i : ℕ), i < l.length →
      (tier_walk_go total cum l).getD i (dummyStat, "") =
        (l.getD i dummyStat,
          tier_of_pct ((cum + ((l.take (i + 1)).map (fun p => p.spend)).sum) / total)) := by
  intro l
  induction l with
  | nil =>
    intro cum i hi
    exact absurd hi (by simp)
  | cons p rest ih =>
    intro cum i hi
    cases i with
    | zero =>
      simp [tier_walk_go, List.take]
    | succ j =>
      have hj : j < rest.length := by simpa using hi
      have step := ih (cum + p.spend) j hj
      simp only [tier_walk_go, List.getD_cons_succ, List.take, List.map_cons, List.sum_cons]
      rw [step]
      ring_nf

theorem pareto_go_least (total : ℚ) :
    ∀ (l : List ℚ) (cum : ℚ) (count : ℕ),
      total * (8/10) ≤ cum + l.sum → cum < total * (8/10) →
      ∃ k, 1 ≤ k ∧ k ≤ l.length ∧ pareto_go total cum count l = count + k ∧
        total * (8/10) ≤ cum + ((l.take k).sum) ∧
        ∀ j, j < k → cum + ((l.take j).sum) < total * (8/10) := by
  intro l
  induction l with
  | nil =>
    intro cum count hreach hcur
    simp only [List.sum_nil, add_zero] at hreach
    exact absurd hreach (not_le.mpr hcur)
  | cons s rest ih =>
    intro cum count hreach hcur
    by_cases hs : total * (8/10) ≤ cum + s
    · refine ⟨1, le_refl 1, by simp, ?_, ?_, ?_⟩
      · simp [pareto_go, if_pos hs]
      · simpa using hs
      · intro j hj
        interval_cases j
        simpa using hcur
    · have hreach2 : total * (8/10) ≤ (cum + s) + rest.sum := by
        simp only [List.sum_cons] at hreach
        linarith
      obtain ⟨k, hk1, hklen, hkeq, hkreach, hkleast⟩ :=
        ih (cum + s) (count + 1) hreach2 (not_le.mp hs)
      refine ⟨k + 1, by omega, by simpa using Nat.succ_le_succ hklen, ?_, ?_, ?_⟩
      · simp only [pareto_go, if_neg hs]
        rw [hkeq]
        omega
      · rw [List.take_succ_cons, List.sum_cons]
        linarith
      · intro j hj
        cases j with
        | zero => simpa using hcur
        | succ j2 =>
          have h5 := hkleast j2 (by omega)
          rw [List.take_succ_cons, List.sum_cons]
          linarith

theorem meanL_pos (l : List ℚ) (hne : l ≠ []) (hpos : ∀ x ∈ l, 0 < x) : 0 < meanL l := by
  have hsum : 0 < l.sum := List.sum_pos l hpos hne
  have hlen : 0 < (l.length : ℚ) := by
    have : 0 < l.length := List.length_pos.mpr hne
    exact_mod_cast this
  exact div_pos hsum hlen

end Frepi.Analysis

namespace Frepi

theorem find?_isSome_concat {α : Type} (p : α → Bool) (l : List α) (x : α)
    (hx : p x) : ((l ++ [x]).find? p).isSome := by
  induction l with
  | nil => simp [List.find?_cons_of_pos _ hx]
  | cons a l2 ih =>
    rw [List.cons_append]
    by_cases hp : p a
    · simp [List.find?_cons_of_pos _ hp]
    · rw [List.find?_cons_of_neg _ hp]
      exact ih

end Frepi

namespace Frepi.Commit

theorem commit_mappings_go_mono (sm pm : List (ℕ × ℕ)) :
    ∀ (prods : List StProduct) (db : Db) (sup mid : ℕ),
      (findSmp db.supplier_mapped_products sup mid).isSome →
      (findSmp (commit_supplier_mappings_go sm pm prods db).supplier_mapped_products
        sup mid).isSome := by
  intro prods
  induction prods with
  | nil => intro db sup mid h; exact h
  | cons st rest ih =>
    intro db sup mid h
    cases hss : st.staging_supplier_id with
    | none =>
      simp only [commit_supplier_mappings_go, hss]
      exact ih db sup mid h
    | some ssid =>
      cases halo : alookup sm ssid with
      | none =>
        simp only [commit_supplier_mappings_go, hss, halo]
        exact ih db sup mid h
      | some sup2 =>
        cases halp : alookup pm st.pid with
        | none =>
          simp only [commit_supplier_mappings_go, hss, halo, halp]
          exact ih db sup mid h
        | some mid2 =>
          by_cases hex : (findSmp db.supplier_mapped_products sup2 mid2).isSome
          · simp only [commit_supplier_mappings_go, hss, halo, halp, if_pos hex]
            exact ih db sup mid h
          · simp only [commit_supplier_mappings_go, hss, halo, halp, if_neg hex, fresh]
            apply ih
            exact find?_isSome_append _ _ _ h

theorem commit_mappings_go_present (sm pm : List (ℕ × ℕ)) :
    ∀ (prods : List StProduct) (db : Db) (st : StProduct), st ∈ prods →
      ∀ k, smpKey sm pm st = some k →
      (findSmp (commit_supplier_mappings_go sm pm prods db).supplier_mapped_products
        k.1 k.2).isSome := by
  intro prods
  induction prods with
  | nil => intro db st hmem; exact absurd hmem (by simp)
  | cons st0 rest ih =>
    intro db st hmem k hk
    rcases List.mem_cons.mp hmem with heq | hmem2
    · subst heq
      cases hss : st.staging_supplier_id with
      | none => simp [smpKey, hss] at hk
      | some ssid =>
        cases halo : alookup sm ssid with
        | none => simp [smpKey, hss, halo] at hk
        | some sup2 =>
          cases halp : alookup pm st.pid with
          | none => simp [smpKey, hss, halo, halp] at hk
          | some mid2 =>
            have hk2 : k = (sup2, mid2) := by
              simp only [smpKey, hss, halo, halp, Option.some.injEq] at hk
              exact hk.symm
            subst hk2
            by_cases hex : (findSmp db.supplier_mapped_products sup2 mid2).isSome
            · simp only [commit_supplier_mappings_go, hss, halo, halp, if_pos hex]
              exact commit_mappings_go_mono sm pm rest db sup2 mid2 hex
            · simp only [commit_supplier_mappings_go, hss, halo, halp, if_neg hex, fresh]
              apply commit_mappings_go_mono
              apply find?_isSome_concat
              simp [findSmp]
    · cases hss : st0.staging_supplier_id with
      | none =>
        simp only [commit_supplier_mappings_go, hss]
        exact ih db st hmem2 k hk
      | some ssid =>
        cases halo : alookup sm ssid with
        | none =>
          simp only [commit_supplier_mappings_go, hss, halo]
          exact ih db st hmem2 k hk
        | some sup2 =>
          cases halp : alookup pm st0.pid with
          | none =>
            simp only [commit_supplier_mappings_go, hss, halo, halp]
            exact ih db st hmem2 k hk
          | some mid2 =>
            by_cases hex : (findSmp db.supplier_mapped_products sup2 mid2).isSome
            · simp only [commit_supplier_mappings_go, hss, halo, halp, if_pos hex]
              exact ih _ st hmem2 k hk
            · simp only [commit_supplier_mappings_go, hss, halo, halp, if_neg hex, fresh]
              exact ih _ st hmem2 k hk

theorem commit_mappings_go_id (sm pm : List (ℕ × ℕ)) :
    ∀ (prods : List StProduct) (db : Db),
      (∀ st ∈ prods, ∀ k, smpKey sm pm st = some k →
        (findSmp db.supplier_mapped_products k.1 k.2).isSome) →
      commit_supplier_mappings_go sm pm prods db = db := by
  intro prods
  induction prods with
  | nil => intro db _; rfl
  | cons st0 rest ih =>
    intro db hpres
    have hrest : ∀ st ∈ rest, ∀ k, smpKey sm pm st = some k →
        (findSmp db.supplier_mapped_products k.1 k.2).isSome := by
      intro st hmem k hk
      exact hpres st (List.mem_cons_of_mem _ hmem) k hk
    cases hss : st0.staging_supplier_id with
    | none =>
      simp only [commit_supplier_mappings_go, hss]
      exact ih db hrest
    | some ssid =>
      cases halo : alookup sm ssid with
      | none =>
        simp only [commit_supplier_mappings_go, hss, halo]
        exact ih db hrest
      | some sup2 =>
        cases halp : alookup pm st0.pid with
        | none =>
          simp only [commit_supplier_mappings_go, hss, halo, halp]
          exact ih db hrest
        | some mid2 =>
          have hex : (findSmp db.supplier_mapped_products sup2 mid2).isSome := by
            apply hpres st0 (List.mem_cons_self _ _) (sup2, mid2)
            simp [smpKey, hss, halo, halp]
          simp only [commit_supplier_mappings_go, hss, halo, halp, if_pos hex]
          exact ih db hrest

end Frepi.Commit

namespace Frepi.Staging

theorem process_photos_go_nodup (production : List ProdSupplierRow) :
    ∀ (invoices : List InvoiceIn) (seen : List String) (staged : List StagedSupplierRow),
      ((staged.map (fun r => r.company_name)).Nodup) →
      (∀ n ∈ staged.map (fun r => r.company_name), n ∈ seen) →
      (((process_photos_go production invoices seen staged).map
        (fun r => r.company_name)).Nodup) := by
  intro invoices
  induction invoices with
  | nil => intro seen staged h1 _; exact h1
  | cons inv rest ih =>
    intro seen staged h1 h2
    by_cases hc : inv.supplier_name ≠ "" ∧ inv.supplier_name ∉ seen
    · simp only [process_photos_go, if_pos hc]
      apply ih
      · simp only [stage_supplier, List.map_append, List.map_cons, List.map_nil]
        rw [List.nodup_append]
        refine ⟨h1, List.nodup_singleton _, ?_⟩
        intro n hn hn2
        simp only [List.mem_singleton] at hn2
        subst hn2
        exact hc.2 (h2 _ hn)
      · intro n hn
        simp only [stage_supplier, List.map_append, List.map_cons, List.map_nil,
          List.mem_append, List.mem_singleton] at hn
        rcases hn with hn | hn
        · exact List.mem_cons_of_mem _ (h2 n hn)
        · subst hn
          exact List.mem_cons_self _ _
    · simp only [process_photos_go, if_neg hc]
      exact ih seen staged h1 h2

end Frepi.Staging

namespace Frepi.Commit

/-- Claim C10: for every engagement-depth choice the user can make, the
initial engagement profile created by commit step 10 has score
`round(0.15 * depth_signal, 2)`, which is at most `0.15` and therefore
below the `0.35` medium threshold, so the profile always has engagement
level low and a drip-question budget of zero, never medium or high. -/
theorem C10_engagement_profile_always_low (engagement_choice : Option ℤ) (rid : ℕ) :
    (create_engagement_profile engagement_choice rid).engagement_level = "low" ∧
    (create_engagement_profile engagement_choice rid).drip_questions_per_session = 0 ∧
    (create_engagement_profile engagement_choice rid).engagement_score =
      round2 ((15/100) * depth_signal (depth_map (engagement_choice.getD 0))) ∧
    (create_engagement_profile engagement_choice rid).engagement_score ≤ 15/100 ∧
    (create_engagement_profile engagement_choice rid).engagement_score < 35/100 := by
  have hd : depth_map (engagement_choice.getD 0) = 0 ∨
      depth_map (engagement_choice.getD 0) = 5 ∨
      depth_map (engagement_choice.getD 0) = 10 := by
    unfold depth_map
    split_ifs <;> simp
  rcases hd with h | h | h <;>
    refine ⟨?_, ?_, ?_, ?_, ?_⟩ <;>
      simp only [create_engagement_profile, engagement_level_of, h, depth_signal] <;>
        norm_num [round2, round_eq]

end Frepi.Commit

namespace Frepi.CommitFlow

/-- Claim C9: for every exception raised during any of the commit
steps, `commit_onboarding` catches it once at the top level and returns
(by construction of the model it cannot raise) a result whose success
flag is false and whose errors list is exactly the triggering error,
and the session status is unchanged, in particular never set to
committed, since the finalizing step runs only after every earlier step
succeeded. -/
theorem C9_commit_exception_contained {δ : Type} (steps : List (δ → Except String δ))
    (fin_err : Option String) (s : SessState δ) (hs : s.status ≠ "committed") :
    (∀ e, (run_steps steps s.db).2 = some e →
      (commit_onboarding_flow steps fin_err s).2.success = false ∧
      (commit_onboarding_flow steps fin_err s).2.errors = [e] ∧
      (commit_onboarding_flow steps fin_err s).1.status = s.status ∧
      (commit_onboarding_flow steps fin_err s).1.status ≠ "committed") ∧
    (∀ e, (run_steps steps s.db).2 = none → fin_err = some e →
      (commit_onboarding_flow steps fin_err s).2.success = false ∧
      (commit_onboarding_flow steps fin_err s).2.errors = [e] ∧
      (commit_onboarding_flow steps fin_err s).1.status = s.status ∧
      (commit_onboarding_flow steps fin_err s).1.status ≠ "committed") := by
  constructor
  · intro e he
    rcases hrun : run_steps steps s.db with ⟨db2, err⟩
    rw [hrun] at he
    simp only at he
    subst he
    simp only [commit_onboarding_flow, hrun]
    exact ⟨trivial, trivial, trivial, hs⟩
  · intro e hnone hfin
    rcases hrun : run_steps steps s.db with ⟨db2, err⟩
    rw [hrun] at hnone
    simp only at hnone
    subst hnone
    subst hfin
    simp only [commit_onboarding_flow, hrun, finalize_abs]
    exact ⟨trivial, trivial, trivial, hs⟩

/-- Witness for claim C9 at a concrete three-step run whose second step
throws. -/
theorem C9_commit_exception_contained_witness :
    (commit_onboarding_flow Frepi.Examples.stepsW none Frepi.Examples.sessW).2.success = false ∧
    (commit_onboarding_flow Frepi.Examples.stepsW none Frepi.Examples.sessW).2.errors = ["boom"] ∧
    (commit_onboarding_flow Frepi.Examples.stepsW none Frepi.Examples.sessW).1.status =
      Frepi.Examples.sessW.status ∧
    (commit_onboarding_flow Frepi.Examples.stepsW none Frepi.Examples.sessW).1.status ≠
      "committed" :=
  (C9_commit_exception_contained Frepi.Examples.stepsW none Frepi.Examples.sessW
    (by decide)).1 "boom" rfl

end Frepi.CommitFlow

namespace Frepi.Img

/-- Claim C8: invoice parsing never raises on malformed model output:
when the decoded response is not parseable JSON after stripping
markdown fences, `parse_invoice_image` returns the zero-confidence
`Parse Error` sentinel instead of raising, and
`parse_multiple_invoices` parses each photo independently, filters out
every failed parse and keeps every successful one. -/
theorem C8_parse_failures_contained (decode : String → Except String InvoiceJson)
    (fetch : String → Except String String) (image_urls : List String)
    (response_text : String) (e : String) :
    (decode (stripStr (strip_markdown_fences response_text)) = .error e →
      (parse_invoice_image decode (.ok response_text)).supplier_name = "Parse Error" ∧
      (parse_invoice_image decode (.ok response_text)).confidence_score = 0) ∧
    (∀ r ∈ parse_multiple_invoices decode fetch image_urls, parseOk r = true) ∧
    (∀ url ∈ image_urls,
      parseOk (parse_invoice_image decode (fetch url)) = true →
      parse_invoice_image decode (fetch url) ∈
        parse_multiple_invoices decode fetch image_urls) := by
  refine ⟨?_, ?_, ?_⟩
  · intro hd
    simp [parse_invoice_image, hd]
  · intro r hr
    exact (List.mem_filter.mp hr).2
  · intro url hu hok
    apply List.mem_filter.mpr
    exact ⟨List.mem_map.mpr ⟨url, hu, rfl⟩, hok⟩

/-- Witness for claim C8: a decoder that always fails yields the
sentinel, and with one good and one failing photo the good one is
kept. -/
theorem C8_parse_failures_contained_witness :
    ((parse_invoice_image Frepi.Examples.decodeFail (.ok "not json")).supplier_name =
        "Parse Error" ∧
      (parse_invoice_image Frepi.Examples.decodeFail (.ok "not json")).confidence_score = 0) ∧
    (parse_invoice_image Frepi.Examples.decodeOk (Frepi.Examples.fetchW "photo1") ∈
      parse_multiple_invoices Frepi.Examples.decodeOk Frepi.Examples.fetchW
        ["photo1", "photo2"]) :=
  ⟨(C8_parse_failures_contained Frepi.Examples.decodeFail Frepi.Examples.fetchW
      ["photo1", "photo2"] "not json" "Expecting value").1 rfl,
    (C8_parse_failures_contained Frepi.Examples.decodeOk Frepi.Examples.fetchW
      ["photo1", "photo2"] "not json" "Expecting value").2.2 "photo1" (by simp) (by rfl)⟩

end Frepi.Img

namespace Frepi.Analysis

/-- Claim C5: for every staged product analyzed in a session with
positive total spend and nonnegative product spend, the importance
score equals the spec formula
`0.3*min(freq/10,1) + 0.4*min(spend/(total*0.2),1) + 0.3*min(share/10,1)`
rounded to two decimals, and the score always lies in `[0, 1]`. -/
theorem C5_importance_score_formula (freq : ℕ) (spend total : ℚ)
    (htotal : 0 < total) (hspend : 0 ≤ spend) :
    importance_score freq spend total = specImportance freq spend total ∧
    0 ≤ importance_score freq spend total ∧
    importance_score freq spend total ≤ 1 := by
  have hfreq0 : 0 ≤ freq_score freq := by
    unfold freq_score
    apply le_min (by positivity) (by norm_num)
  have hfreq1 : freq_score freq ≤ 1 := min_le_right _ _
  have hsp0 : 0 ≤ spend_score spend total := by
    unfold spend_score
    rw [if_pos htotal]
    have h1 : 0 ≤ spend / (total * (2/10)) := by positivity
    exact le_min h1 (by norm_num)
  have hsp1 : spend_score spend total ≤ 1 := by
    unfold spend_score
    rw [if_pos htotal]
    exact min_le_right _ _
  have hshare_eq : ∀ x : ℚ, share_score (some x) = min (x / 10) 1 := by
    intro x
    unfold share_score qTruthy
    by_cases hx : x = 0
    · subst hx
      norm_num
    · simp [hx]
  have hsh : sharePct spend total = some (spend / total * 100) := by
    unfold sharePct
    rw [if_pos htotal]
  have hsh0 : 0 ≤ share_score (sharePct spend total) := by
    rw [hsh, hshare_eq]
    have h1 : 0 ≤ spend / total * 100 / 10 := by positivity
    exact le_min h1 (by norm_num)
  have hsh1 : share_score (sharePct spend total) ≤ 1 := by
    rw [hsh, hshare_eq]
    exact min_le_right _ _
  have heq : importance_score freq spend total = specImportance freq spend total := by
    unfold importance_score specImportance
    rw [hsh, hshare_eq]
    congr 1
    unfold freq_score spend_score
    rw [if_pos htotal]
    ring
  refine ⟨heq, ?_, ?_⟩
  · apply round2_nonneg
    nlinarith [hfreq0, hsp0, hsh0]
  · apply round2_le_one
    nlinarith [hfreq1, hsp1, hsh1]

/-- Witness for claim C5 at frequency 2, spend 30, total 100. -/
theorem C5_importance_score_formula_witness :
    importance_score 2 30 100 = specImportance 2 30 100 ∧
    0 ≤ importance_score 2 30 100 ∧
    importance_score 2 30 100 ≤ 1 :=
  C5_importance_score_formula 2 30 100 (by norm_num) (by norm_num)

end Frepi.Analysis

namespace Frepi.Analysis

/-- Claim C6: for every product with at least one truthy staged unit
price, all positive, price analysis computes the variance percentage as
`(max-min)/avg*100`, sets the suggested maximum to `avg*1.2` when the
variance is strictly above 20 percent and to `max*1.1` otherwise, and
emits a `price_max` preference with confidence `0.8` when the variance
is strictly below 20 percent and `0.6` otherwise; in particular unit
prices `[40, 60]` give suggested max `60.0` (confidence `0.6`) and unit
prices `[48, 50, 52]` give suggested max `57.2` (confidence `0.8`). -/
theorem C6_price_variance_and_suggested_max (ps : List ℚ) (hne : ps ≠ [])
    (hpos : ∀ x ∈ ps, 0 < x) :
    (analyze_price_range ps).variance_percentage =
      round1 ((maxL ps - minL ps) / meanL ps * 100) ∧
    (analyze_price_range ps).suggested_max =
      round2 (if 20 < (maxL ps - minL ps) / meanL ps * 100 then meanL ps * (12/10)
        else maxL ps * (11/10)) ∧
    (analyze_price_range ps).preference_confidence =
      (if (maxL ps - minL ps) / meanL ps * 100 < 20 then 8/10 else 6/10) ∧
    (analyze_price_range [40, 60]).suggested_max = 60 ∧
    (analyze_price_range [40, 60]).preference_confidence = 6/10 ∧
    (analyze_price_range [48, 50, 52]).suggested_max = 286/5 ∧
    (analyze_price_range [48, 50, 52]).preference_confidence = 8/10 := by
  have havg : 0 < meanL ps := meanL_pos ps hne hpos
  refine ⟨?_, ?_, ?_, ?_, ?_, ?_, ?_⟩
  · simp [analyze_price_range, if_pos havg]
  · simp [analyze_price_range, if_pos havg]
  · simp [analyze_price_range, if_pos havg]
  · norm_num [analyze_price_range, minL, maxL, meanL, round2, round_eq]
  · norm_num [analyze_price_range, minL, maxL, meanL]
  · norm_num [analyze_price_range, minL, maxL, meanL, round2, round_eq]
  · norm_num [analyze_price_range, minL, maxL, meanL]

/-- Witness for claim C6 at the unit prices `[40, 60]`. -/
theorem C6_price_variance_and_suggested_max_witness :
    (analyze_price_range [40, 60]).variance_percentage =
      round1 ((maxL [40, 60] - minL [40, 60]) / meanL [40, 60] * 100) ∧
    (analyze_price_range [40, 60]).suggested_max =
      round2 (if 20 < (maxL [40, 60] - minL [40, 60]) / meanL [40, 60] * 100
        then meanL [40, 60] * (12/10) else maxL [40, 60] * (11/10)) ∧
    (analyze_price_range [40, 60]).preference_confidence =
      (if (maxL [40, 60] - minL [40, 60]) / meanL [40, 60] * 100 < 20
        then 8/10 else 6/10) ∧
    (analyze_price_range [40, 60]).suggested_max = 60 ∧
    (analyze_price_range [40, 60]).preference_confidence = 6/10 ∧
    (analyze_price_range [48, 50, 52]).suggested_max = 286/5 ∧
    (analyze_price_range [48, 50, 52]).preference_confidence = 8/10 :=
  C6_price_variance_and_suggested_max [40, 60] (by simp) (by norm_num)

end Frepi.Analysis

namespace Frepi.Analysis

/-- Claim C2 (amended): for every session with positive total spend,
tier assignment walks the staged products in the order the code sorts
them, importance score descending, accumulating cumulative spend, and
the tier of the product at each position is exactly the tier of its
cumulative spend share in that walk order, head up to 60 percent and
mid_tail up to 90 percent; consequently every head product lies within
the top cumulative 60 percent of spend of the importance-ordered walk,
and every mid_tail product within the top 90 percent. -/
theorem C2_tiers_follow_importance_walk (stats : List ProductStats) (total : ℚ)
    (htotal : 0 < total) :
    (assign_tiers stats total).length = stats.length ∧
    (∀ i, i < stats.length →
      (assign_tiers stats total).getD i (dummyStat, "") =
        (stats.getD i dummyStat, tier_of_pct (prefixSpend stats (i + 1) / total))) ∧
    (∀ i, i < stats.length →
      ((assign_tiers stats total).getD i (dummyStat, "")).2 = "head" →
        prefixSpend stats (i + 1) ≤ (6/10) * total) ∧
    (∀ i, i < stats.length →
      ((assign_tiers stats total).getD i (dummyStat, "")).2 = "mid_tail" →
        prefixSpend stats (i + 1) ≤ (9/10) * total) := by
  have hnotle : ¬ total ≤ 0 := not_le.mpr htotal
  have hwalk : ∀ (p : ProductStats) (rest : List ProductStats),
      stats = p :: rest → assign_tiers stats total = tier_walk_go total 0 stats := by
    intro p rest hcons
    rw [hcons]
    simp [assign_tiers, if_neg hnotle]
  cases hstats : stats with
  | nil =>
    refine ⟨by simp [assign_tiers], ?_, ?_, ?_⟩ <;> intro i hi <;> exact absurd hi (by simp)
  | cons p rest =>
    have hform : assign_tiers (p :: rest) total = tier_walk_go total 0 (p :: rest) := by
      simp [assign_tiers, if_neg hnotle]
    have hgetD : ∀ i, i < (p :: rest).length →
        (assign_tiers (p :: rest) total).getD i (dummyStat, "") =
          ((p :: rest).getD i dummyStat,
            tier_of_pct (prefixSpend (p :: rest) (i + 1) / total)) := by
      intro i hi
      rw [hform]
      have h2 := tier_walk_go_getD total (p :: rest) 0 i hi
      rw [h2]
      unfold prefixSpend
      rw [zero_add]
    refine ⟨by rw [hform, tier_walk_go_length], hgetD, ?_, ?_⟩
    · intro i hi hhead
      rw [hgetD i hi] at hhead
      simp only at hhead
      unfold tier_of_pct at hhead
      by_cases h6 : prefixSpend (p :: rest) (i + 1) / total ≤ 6/10
      · have h7 := (div_le_iff₀ htotal).mp h6
        linarith
      · rw [if_neg h6] at hhead
        by_cases h9 : prefixSpend (p :: rest) (i + 1) / total ≤ 9/10
        · rw [if_pos h9] at hhead
          exact absurd hhead (by decide)
        · rw [if_neg h9] at hhead
          exact absurd hhead (by decide)
    · intro i hi hmid
      rw [hgetD i hi] at hmid
      simp only at hmid
      unfold tier_of_pct at hmid
      by_cases h6 : prefixSpend (p :: rest) (i + 1) / total ≤ 6/10
      · have h7 := (div_le_iff₀ htotal).mp h6
        linarith
      · rw [if_neg h6] at hmid
        by_cases h9 : prefixSpend (p :: rest) (i + 1) / total ≤ 9/10
        · have h7 := (div_le_iff₀ htotal).mp h9
          linarith
        · rw [if_neg h9] at hmid
          exact absurd hmid (by decide)

end Frepi.Analysis

namespace Frepi.Analysis

open Frepi.Examples

/-- Witness for claim C2 (amended) at two concrete products with spends
50 and 150 and total 200. -/
theorem C2_tiers_follow_importance_walk_witness :
    0 < (200 : ℚ) ∧
    ((assign_tiers [⟨1, "a", 1, 50, 1⟩, ⟨2, "b", 1, 150, 0⟩] 200).length =
        ([⟨1, "a", 1, 50, 1⟩, ⟨2, "b", 1, 150, 0⟩] : List ProductStats).length ∧
      (∀ i, i < ([⟨1, "a", 1, 50, 1⟩, ⟨2, "b", 1, 150, 0⟩] : List ProductStats).length →
        (assign_tiers [⟨1, "a", 1, 50, 1⟩, ⟨2, "b", 1, 150, 0⟩] 200).getD i (dummyStat, "") =
          (([⟨1, "a", 1, 50, 1⟩, ⟨2, "b", 1, 150, 0⟩] : List ProductStats).getD i dummyStat,
            tier_of_pct (prefixSpend [⟨1, "a", 1, 50, 1⟩, ⟨2, "b", 1, 150, 0⟩] (i + 1) / 200))) ∧
      (∀ i, i < ([⟨1, "a", 1, 50, 1⟩, ⟨2, "b", 1, 150, 0⟩] : List ProductStats).length →
        ((assign_tiers [⟨1, "a", 1, 50, 1⟩, ⟨2, "b", 1, 150, 0⟩] 200).getD i (dummyStat, "")).2 =
            "head" →
          prefixSpend [⟨1, "a", 1, 50, 1⟩, ⟨2, "b", 1, 150, 0⟩] (i + 1) ≤ (6/10) * 200) ∧
      (∀ i, i < ([⟨1, "a", 1, 50, 1⟩, ⟨2, "b", 1, 150, 0⟩] : List ProductStats).length →
        ((assign_tiers [⟨1, "a", 1, 50, 1⟩, ⟨2, "b", 1, 150, 0⟩] 200).getD i (dummyStat, "")).2 =
            "mid_tail" →
          prefixSpend [⟨1, "a", 1, 50, 1⟩, ⟨2, "b", 1, 150, 0⟩] (i + 1) ≤ (9/10) * 200)) :=
  ⟨by norm_num,
    C2_tiers_follow_importance_walk [⟨1, "a", 1, 50, 1⟩, ⟨2, "b", 1, 150, 0⟩] 200 (by norm_num)⟩

/-- Counterexample to claim C2 as stated: in the session `outC2` the
product arroz (spend 90, bought ten times) outranks picanha (spend 100,
bought once) by importance score, so the code assigns arroz the head
tier although arroz is not within the top cumulative 60 percent of
spend taken in spend-descending order, which contains only picanha;
the walk is therefore not sorted by total spend descending. -/
theorem C2_counterexample_head_outside_top60 :
    outC2.tiers.map (fun pt => (pt.1.name, pt.2)) =
      [("arroz", "head"), ("picanha", "long_tail")] ∧
    (specTop60BySpend outC2.sorted_products outC2.total_spend).map (fun p => p.name) =
      ["picanha"] ∧
    "arroz" ∉ (specTop60BySpend outC2.sorted_products outC2.total_spend).map
      (fun p => p.name) := by
  refine ⟨?_, ?_, ?_⟩ <;>
    · norm_num [outC2, productsC2, pricesC2, analyze_products, statsOf, pricesFor,
        product_spend, lineSpend, qTruthy, freq_score, spend_score, sharePct, share_score,
        importance_score, round2, round_eq, sortDesc, insertDesc, assign_tiers, tier_walk_go,
        tier_of_pct, pareto_go, pareto_count, List.replicate, specTop60BySpend,
        specSortBySpendDesc, specTopCumGo]
      try decide

/-- Claim C3 (amended): `pareto_product_count` is the least number of
top products, taken in the order the code walks them, importance score
descending, whose cumulative spend reaches 80 percent of total spend,
and `pareto_percentage` is that count divided by the product count
times 100; in particular, in the session `outC3b`, whose top three
products by importance score account for exactly 80 percent of total
spend, the count is 3 and the percentage is 30. -/
theorem C3_pareto_least_count_in_importance_order (spends : List ℚ) (total : ℚ)
    (htotal : 0 < total) (hreach : total * (8/10) ≤ spends.sum) :
    (1 ≤ pareto_count total spends ∧
      pareto_count total spends ≤ spends.length ∧
      total * (8/10) ≤ ((spends.take (pareto_count total spends)).sum) ∧
      (∀ j, j < pareto_count total spends → ((spends.take j).sum) < total * (8/10))) ∧
    outC3b.pareto_product_count = 3 ∧ outC3b.pareto_percentage = 30 := by
  refine ⟨?_, ?_, ?_⟩
  · have hcur : (0 : ℚ) < total * (8/10) := by nlinarith
    obtain ⟨k, hk1, hklen, hkeq, hkreach, hkleast⟩ :=
      pareto_go_least total spends 0 0 (by simpa using hreach) hcur
    have hc : pareto_count total spends = k := by
      unfold pareto_count
      omega
    rw [hc]
    refine ⟨hk1, hklen, by simpa using hkreach, ?_⟩
    intro j hj
    have h5 := hkleast j hj
    simpa using h5
  · norm_num [outC3b, productsC3b, pricesC3b, analyze_products, statsOf, pricesFor,
      product_spend, lineSpend, qTruthy, freq_score, spend_score, sharePct, share_score,
      importance_score, round2, round_eq, sortDesc, insertDesc, pareto_count, pareto_go,
      List.replicate]
  · norm_num [outC3b, productsC3b, pricesC3b, analyze_products, statsOf, pricesFor,
      product_spend, lineSpend, qTruthy, freq_score, spend_score, sharePct, share_score,
      importance_score, round2, round_eq, sortDesc, insertDesc, pareto_count, pareto_go,
      List.replicate]
    decide

/-- Witness for claim C3 (amended) at the spends `[3, 1]` with total 4. -/
theorem C3_pareto_least_count_in_importance_order_witness :
    (1 ≤ pareto_count 4 [3, 1] ∧
      pareto_count 4 [3, 1] ≤ ([3, 1] : List ℚ).length ∧
      (4 : ℚ) * (8/10) ≤ ((([3, 1] : List ℚ).take (pareto_count 4 [3, 1])).sum) ∧
      (∀ j, j < pareto_count 4 [3, 1] → ((([3, 1] : List ℚ).take j).sum) < 4 * (8/10))) ∧
    outC3b.pareto_product_count = 3 ∧ outC3b.pareto_percentage = 30 :=
  C3_pareto_least_count_in_importance_order [3, 1] 4 (by norm_num) (by norm_num)

/-- Counterexample to claim C3 as stated: in the session `outC3`
(spends 80, 11, 9 with frequencies 1, 10, 1), the Pareto loop walks the
importance-descending order tomate, carne, sal and needs 2 products to
reach 80 percent of total spend, while the number of top products by
total spend needed for 80 percent is 1. -/
theorem C3_counterexample_pareto_not_by_spend :
    outC3.pareto_product_count = 2 ∧
    specParetoCount outC3.sorted_products outC3.total_spend = 1 := by
  constructor <;>
    norm_num [outC3, productsC3, pricesC3, analyze_products, statsOf, pricesFor,
      product_spend, lineSpend, qTruthy, freq_score, spend_score, sharePct, share_score,
      importance_score, round2, round_eq, sortDesc, insertDesc, pareto_count, pareto_go,
      List.replicate, specParetoCount, specSortBySpendDesc]

end Frepi.Analysis

namespace Frepi.Brand

open Frepi.Examples

theorem base_name_abx : get_base_product_name "Arroz Branco X" = "arroz branco" := by decide

theorem base_name_aby : get_base_product_name "Arroz Branco Y" = "arroz branco" := by decide

theorem base_name_abz : get_base_product_name "Arroz Branco Z" = "arroz branco" := by decide

theorem strA_ne_empty : ("MarcaA" = "") = False := by simp

theorem strB_ne_empty : ("MarcaB" = "") = False := by simp

theorem strC_ne_empty : ("MarcaC" = "") = False := by simp

theorem strA_ne_B : ("MarcaA" = "MarcaB") = False := by simp

theorem strA_ne_C : ("MarcaA" = "MarcaC") = False := by simp

theorem strB_ne_C : ("MarcaB" = "MarcaC") = False := by simp

/-- Claim C7 (amended): every detected brand preference has a purchase
percentage of at least 50 percent and confidence
`min(percentage + 0.1, 0.95)`; a 7 versus 3 purchase split yields a
preference for the majority brand with percentage `0.7` and confidence
`0.8`; and with a 4/3/3 split, whose top brand is below 50 percent, no
preference is emitted.  A 4/6 split does emit a preference, for the
60 percent brand (see the counterexample to the claim as stated). -/
theorem C7_brand_dominance_threshold :
    (∀ (products : List ProductB) (bp : BrandPreferenceOut),
      bp ∈ analyze_brand_preferences products →
      1/2 ≤ bp.purchase_percentage ∧
      bp.confidence = min (bp.purchase_percentage + 1/10) (19/20)) ∧
    (analyze_brand_preferences brandSplit73).map
      (fun b => (b.product_name, b.brand_name, b.purchase_percentage, b.purchase_count,
        b.confidence)) = [("arroz branco", "MarcaA", 7/10, 7, 4/5)] ∧
    analyze_brand_preferences brandSplit433 = [] := by
  refine ⟨?_, ?_, ?_⟩
  · intro products bp hmem
    rw [analyze_brand_preferences, mem_sortDesc] at hmem
    obtain ⟨g, hg, hsome⟩ := List.mem_filterMap.mp hmem
    simp only [analyze_group] at hsome
    split at hsome
    · exact absurd hsome (by simp)
    · split at hsome
      · exact absurd hsome (by simp)
      · split at hsome
        · exact absurd hsome (by simp)
        · split at hsome
          · rename_i hhalf
            obtain rfl := (Option.some.injEq _ _).mp hsome
            exact ⟨hhalf, rfl⟩
          · exact absurd hsome (by simp)
  · norm_num [brandSplit73, analyze_brand_preferences, product_groups, List.foldl,
      strTruthy, base_name_abx, base_name_aby, addToGroups, analyze_group, brand_counts,
      bumpCount, freqOr1, sortDesc, insertDesc, strA_ne_empty, strB_ne_empty, strA_ne_B,
      List.filterMap_cons, List.filterMap_nil, Function.comp]
  · norm_num [brandSplit433, analyze_brand_preferences, product_groups, List.foldl,
      strTruthy, base_name_abx, base_name_aby, base_name_abz, addToGroups, analyze_group,
      brand_counts, bumpCount, freqOr1, sortDesc, insertDesc, strA_ne_empty, strB_ne_empty,
      strC_ne_empty, strA_ne_B, strA_ne_C, strB_ne_C, List.filterMap_cons, List.filterMap_nil,
      Function.comp]

/-- Witness for claim C7 (amended): the invariant applied to the
preference detected in the 7 versus 3 session. -/
theorem C7_brand_dominance_threshold_witness :
    1/2 ≤ (⟨"arroz branco", "MarcaA", 7/10, 7, 4/5⟩ : BrandPreferenceOut).purchase_percentage ∧
    (⟨"arroz branco", "MarcaA", 7/10, 7, 4/5⟩ : BrandPreferenceOut).confidence =
      min ((⟨"arroz branco", "MarcaA", 7/10, 7, 4/5⟩ : BrandPreferenceOut).purchase_percentage
        + 1/10) (19/20) :=
  C7_brand_dominance_threshold.1 brandSplit73 ⟨"arroz branco", "MarcaA", 7/10, 7, 4/5⟩
    (by norm_num [brandSplit73, analyze_brand_preferences, product_groups, List.foldl,
      strTruthy, base_name_abx, base_name_aby, addToGroups, analyze_group, brand_counts,
      bumpCount, freqOr1, sortDesc, insertDesc, strA_ne_empty, strB_ne_empty, strA_ne_B,
      List.filterMap_cons, List.filterMap_nil, Function.comp])

/-- Counterexample to claim C7 as stated: with a 4 versus 6 purchase
split the top brand holds 60 percent, so `_analyze_brand_preferences`
emits a preference for the majority brand with percentage `0.6` and
confidence `0.7`, instead of emitting none. -/
theorem C7_counterexample_46_split_emits_preference :
    (analyze_brand_preferences brandSplit46).map
      (fun b => (b.product_name, b.brand_name, b.purchase_percentage, b.confidence)) =
      [("arroz branco", "MarcaB", 3/5, 7/10)] ∧
    analyze_brand_preferences brandSplit46 ≠ [] := by
  have h2 : (analyze_brand_preferences brandSplit46).map
      (fun b => (b.product_name, b.brand_name, b.purchase_percentage, b.confidence)) =
      [("arroz branco", "MarcaB", 3/5, 7/10)] := by
    norm_num [brandSplit46, analyze_brand_preferences, product_groups, List.foldl,
      strTruthy, base_name_abx, base_name_aby, addToGroups, analyze_group, brand_counts,
      bumpCount, freqOr1, sortDesc, insertDesc, strA_ne_empty, strB_ne_empty, strA_ne_B,
      List.filterMap_cons, List.filterMap_nil, Function.comp]
  refine ⟨h2, ?_⟩
  intro hnil
  rw [hnil] at h2
  exact absurd h2 (by simp)

end Frepi.Brand

namespace Frepi.Staging

open Frepi.Examples

/-- Claim C4 (amended): within one photo batch,
`_process_invoice_photos` suppresses a second staging of an exactly
equal supplier name through its in-memory map, so the staged suppliers
of a batch have pairwise-distinct exact company names; the
case-insensitive containment match of `stage_supplier` runs against
production suppliers only and does not deduplicate staging rows. -/
theorem C4_exact_name_dedup_within_batch (production : List ProdSupplierRow)
    (invoices : List InvoiceIn) :
    ((process_invoice_photos_suppliers production invoices).map
      (fun r => r.company_name)).Nodup :=
  process_photos_go_nodup production invoices [] [] (by simp) (by simp)

/-- Counterexample to claim C4 as stated: a batch carrying the same
supplier name in two casings stages two supplier rows, because the
dedup key is the exact name; the two rows agree case-insensitively. -/
theorem C4_counterexample_casing_duplicates :
    stagedC4.length = 2 ∧
    lowerStr ((stagedC4.getD 0 dummySupRow).company_name) =
      lowerStr ((stagedC4.getD 1 dummySupRow).company_name) ∧
    (stagedC4.getD 0 dummySupRow).company_name ≠
      (stagedC4.getD 1 dummySupRow).company_name := by
  refine ⟨?_, ?_, ?_⟩ <;> decide

end Frepi.Staging

namespace Frepi.Commit

open Frepi.Examples

/-- Claim C1 (amended): re-running the supplier-mapping step of the
commit (step 6) is idempotent: the existence check on the
`(supplier_id, master_list_id)` pair short-circuits every re-insertion,
so a second run with the same id mappings changes nothing.  The
supplier and product steps have no such existence check, and a second
`commit_onboarding` duplicates unmatched suppliers and products (see
the counterexample). -/
theorem C1_mapping_step_idempotent (staged : List StProduct) (sm pm : List (ℕ × ℕ))
    (s : CommitSt) :
    commit_supplier_mappings staged sm pm (commit_supplier_mappings staged sm pm s) =
      commit_supplier_mappings staged sm pm s := by
  have hgo : commit_supplier_mappings_go sm pm staged
      (commit_supplier_mappings_go sm pm staged s.db) =
      commit_supplier_mappings_go sm pm staged s.db := by
    apply commit_mappings_go_id
    intro st hmem k hk
    exact commit_mappings_go_present sm pm staged s.db st hmem k hk
  unfold commit_supplier_mappings
  simp only
  rw [hgo]

/-- Counterexample to claim C1 as stated: committing the session `stC1`
(one unmatched staged supplier Marfrig with one unmatched staged
product Picanha) twice with no intervening staged-data change inserts
the supplier row and the master-list product row a second time, because
`_commit_suppliers` and `_commit_products` have no existence check;
only matched ids are reused. -/
theorem C1_counterexample_second_commit_duplicates :
    stC1once.db.suppliers.map (fun r => r.company_name) = ["Marfrig"] ∧
    stC1twice.db.suppliers.map (fun r => r.company_name) = ["Marfrig", "Marfrig"] ∧
    stC1once.db.master_list.map (fun r => r.product_name) = ["Picanha"] ∧
    stC1twice.db.master_list.map (fun r => r.product_name) = ["Picanha", "Picanha"] := by
  refine ⟨?_, ?_, ?_, ?_⟩ <;>
    norm_num [stC1once, stC1twice, stC1, emptyDb, commit_onboarding, commit_restaurant,
      commit_restaurant_person, commit_suppliers, commit_suppliers_go,
      generate_product_embeddings, commit_products, commit_products_go,
      commit_supplier_mappings, commit_supplier_mappings_go, commit_prices,
      commit_prices_go, commit_preferences, commit_preferences_go, prefs_by_product,
      populate_preference_queue, populate_queue_go, create_engagement_profile_step,
      create_engagement_profile, depth_map, depth_signal, engagement_level_of,
      finalize_session, fresh, findSmp, alookup, upsertPref, groupPrefs, refreshSmpPrice,
      sortDesc, insertDesc, round2, round_eq, List.foldl]

end Frepi.Commit
